import Mathlib

/-!
Verification of the minio-sidekick metrics core (`metrics.go`): the
per-endpoint `ConnStats` record, its setters and getters, the bucket
classifier `getBucketFromPath`, and the collector loop `Collect`,
shallowly embedded as pure Lean functions.  Machine integers (`uint64`,
`int64`, `time.Duration`) are modelled as `Nat`/`Int` with explicit
reduction modulo `2 ^ 64` where Go performs unsigned conversion.
-/

namespace Sidekick

/-- `errorHTTPStatusCodes = StatusNetworkAuthenticationRequired (511) -
StatusBadRequest (400) + 1 = 112`, the size of the failure-counter array. -/
def errorHTTPStatusCodes : Nat := 511 - 400 + 1

/-- Go's `uint64(n)` conversion of an `int64` value: reduce modulo `2 ^ 64`
into the non-negative representatives. -/
def toUint64 (n : Int) : Nat := (n % (2 : Int) ^ 64).toNat

/-- `ConnStats` — statistics on a backend (the atomic wrappers of the source
are modelled by their plain stored values; `atomic.Uint64` fields become
`Nat`, `atomic.Duration` (an `int64`) becomes `Int`). -/
structure ConnStats where
  endpoint : String
  totalInputBytes : Nat
  totalOutputBytes : Nat
  totalCalls : Nat
  totalFailedCalls : Fin errorHTTPStatusCodes → Nat
  minLatency : Int
  maxLatency : Int

/-- `setInputBytes`: store current total input bytes, `uint64(n)`. -/
def setInputBytes (s : ConnStats) (n : Int) : ConnStats :=
  { s with totalInputBytes := toUint64 n }

/-- `setOutputBytes`: store current total output bytes, `uint64(n)`. -/
def setOutputBytes (s : ConnStats) (n : Int) : ConnStats :=
  { s with totalOutputBytes := toUint64 n }

/-- `getTotalInputBytes`: return total input bytes. -/
def getTotalInputBytes (s : ConnStats) : Nat :=
  s.totalInputBytes

/-- `setTotalCalls`: store current total calls, `uint64(n)`. -/
def setTotalCalls (s : ConnStats) (n : Int) : ConnStats :=
  { s with totalCalls := toUint64 n }

/-- `setTotalCallFailures`: store current total call failures — every slot of
the array is overwritten with `uint64(value)` of the corresponding input. -/
def setTotalCallFailures (s : ConnStats) (n : Fin errorHTTPStatusCodes → Int) : ConnStats :=
  { s with totalFailedCalls := fun statusCode => toUint64 (n statusCode) }

/-- `setMinLatency`: store the given duration, unconditionally. -/
def setMinLatency (s : ConnStats) (mn : Int) : ConnStats :=
  { s with minLatency := mn }

/-- `setMaxLatency`: store the given duration, unconditionally. -/
def setMaxLatency (s : ConnStats) (mx : Int) : ConnStats :=
  { s with maxLatency := mx }

/-- `getTotalOutputBytes`: return total output bytes. -/
def getTotalOutputBytes (s : ConnStats) : Nat :=
  s.totalOutputBytes

/-- `newConnStats`: `&ConnStats{endpoint: endpoint}` — all remaining fields
take Go's zero value. -/
def newConnStats (endpoint : String) : ConnStats :=
  { endpoint := endpoint
    totalInputBytes := 0
    totalOutputBytes := 0
    totalCalls := 0
    totalFailedCalls := fun _ => 0
    minLatency := 0
    maxLatency := 0 }

/-- First loop of `getBucketFromPath`: `for i < len(path) && path[i] == '/' { i++ }` —
drop the leading `'/'` characters. -/
def skipLeadingSlashes : List Char → List Char
  | [] => []
  | c :: cs => if c = '/' then skipLeadingSlashes cs else c :: cs

/-- Second loop of `getBucketFromPath`: copy characters into the builder until
the next `'/'` or the end of the string. -/
def copyUntilSlash : List Char → List Char
  | [] => []
  | c :: cs => if c = '/' then [] else c :: copyUntilSlash cs

/-- `getBucketFromPath` — extract bucket name from an HTTP request path. -/
def getBucketFromPath (path : String) : String :=
  if path.length = 0 then ""
  else String.mk (copyUntilSlash (skipLeadingSlashes path.toList))

/-- The spec's wording of the bucket classifier, stated independently of the
source: skip any leading `'/'` characters, then take characters until the
next `'/'` or end-of-string. -/
def bucketSpec (path : String) : String :=
  String.mk ((path.toList.dropWhile (fun c => c == '/')).takeWhile (fun c => c != '/'))

/-- One emitted Prometheus metric, identified by its fully-qualified name,
labels, and value (the `float64` conversion of the opaque sink is left to the
external library; the value recorded here is the loaded counter). -/
inductive Metric where
  | totalCalls (endpoint : String) (value : Nat)
  | failedCalls (endpoint : String) (statusCode : String) (value : Nat)
  | rxBytes (endpoint : String) (value : Nat)
  | txBytes (endpoint : String) (value : Nat)
deriving DecidableEq

/-- The `status_code` label: `strconv.Itoa(statusCode + http.StatusBadRequest)`. -/
def statusLabel (statusCode : Fin errorHTTPStatusCodes) : String :=
  Nat.repr (statusCode.val + 400)

/-- The inner loop of `Collect` over a list of indices of the failure array:
for each `statusCode`, emit a `sidekick_errors_total` metric when the loaded
value is positive, nothing otherwise. -/
def failureMetricsOn (e : String) (f : Fin errorHTTPStatusCodes → Nat) :
    List (Fin errorHTTPStatusCodes) → List Metric
  | [] => []
  | j :: rest =>
    (if f j > 0 then [Metric.failedCalls e (statusLabel j) (f j)] else []) ++
      failureMetricsOn e f rest

/-- `for statusCode, counter := range c.totalFailedCalls { ... }`: the inner
loop of `Collect`, ranging over all 112 indices in order. -/
def failureMetrics (c : ConnStats) : List Metric :=
  failureMetricsOn c.endpoint c.totalFailedCalls (List.finRange errorHTTPStatusCodes)

/-- One iteration of the `Collect` loop body: a `nil` entry is skipped
(`continue`), a present entry emits the total-calls counter, the positive
failure counters, then the rx and tx byte counters, in source order. -/
def collectOne : Option ConnStats → List Metric
  | none => []
  | some c =>
    Metric.totalCalls c.endpoint c.totalCalls ::
      (failureMetrics c ++
        [Metric.rxBytes c.endpoint (getTotalInputBytes c),
         Metric.txBytes c.endpoint (getTotalOutputBytes c)])

/-- `Collect`: iterate `globalConnStats` (a slice of possibly-nil pointers,
modelled as a list of optional records) once, emitting each entry's metrics. -/
def collect : List (Option ConnStats) → List Metric
  | [] => []
  | c :: rest => collectOne c ++ collect rest

/-- Recognizer for a failure metric carrying a given `status_code` label. -/
def isFailureWithStatus (s : String) : Metric → Bool
  | .failedCalls _ sc _ => sc == s
  | _ => false

lemma skipLeadingSlashes_eq_dropWhile (l : List Char) :
    skipLeadingSlashes l = l.dropWhile (fun c => c == '/') := by
  induction l with
  | nil => rfl
  | cons c cs ih =>
    by_cases hc : c = '/' <;>
      simp [skipLeadingSlashes, List.dropWhile_cons, hc, ih]

lemma copyUntilSlash_eq_takeWhile (l : List Char) :
    copyUntilSlash l = l.takeWhile (fun c => c != '/') := by
  induction l with
  | nil => rfl
  | cons c cs ih =>
    by_cases hc : c = '/' <;>
      simp [copyUntilSlash, List.takeWhile_cons, hc, ih]

/-- C1: `getBucketFromPath` skips all leading `'/'` characters, then returns
the characters up to (but excluding) the next `'/'` or the end of the string;
in particular it maps `""` to `""`, `"/"` to `""`,
`"/core-data/Cheques/dbo__cheques"` to `"core-data"`, and
`"noleadingslash/x"` to `"noleadingslash"`. -/
theorem getBucketFromPath_correct :
    (∀ path : String, getBucketFromPath path = bucketSpec path) ∧
    getBucketFromPath "" = "" ∧
    getBucketFromPath "/" = "" ∧
    getBucketFromPath "/core-data/Cheques/dbo__cheques" = "core-data" ∧
    getBucketFromPath "noleadingslash/x" = "noleadingslash" := by
  refine ⟨fun path => ?_, rfl, rfl, rfl, rfl⟩
  unfold getBucketFromPath bucketSpec
  split
  · rename_i h
    obtain ⟨data⟩ := path
    have hdata : data = [] := List.eq_nil_of_length_eq_zero h
    simp [hdata, String.toList]
  · rw [skipLeadingSlashes_eq_dropWhile, copyUntilSlash_eq_takeWhile]

set_option maxRecDepth 40000 in
lemma statusLabel_inj :
    ∀ i j : Fin errorHTTPStatusCodes, statusLabel j = statusLabel i → j = i := by
  decide

lemma filter_failureMetricsOn_of_not_mem (e : String) (f : Fin errorHTTPStatusCodes → Nat)
    (i : Fin errorHTTPStatusCodes) (l : List (Fin errorHTTPStatusCodes))
    (h : ∀ j ∈ l, statusLabel j ≠ statusLabel i) :
    (failureMetricsOn e f l).filter (isFailureWithStatus (statusLabel i)) = [] := by
  induction l with
  | nil => rfl
  | cons j rest ih =>
    have hj : statusLabel j ≠ statusLabel i := h j (List.mem_cons_self j rest)
    have hrest := ih fun k hk => h k (List.mem_cons_of_mem j hk)
    by_cases hfj : f j > 0 <;>
      simp [failureMetricsOn, hfj, List.filter_append, isFailureWithStatus, hj, hrest]

lemma filter_failureMetricsOn (e : String) (f : Fin errorHTTPStatusCodes → Nat)
    (i : Fin errorHTTPStatusCodes) (l : List (Fin errorHTTPStatusCodes))
    (hmem : i ∈ l) (hnd : l.Nodup)
    (hinj : ∀ j ∈ l, statusLabel j = statusLabel i → j = i) :
    (failureMetricsOn e f l).filter (isFailureWithStatus (statusLabel i)) =
      if f i > 0 then [Metric.failedCalls e (statusLabel i) (f i)] else [] := by
  induction l with
  | nil => cases hmem
  | cons j rest ih =>
    rcases List.mem_cons.mp hmem with hji | hmem2
    · subst hji
      have hnotin : i ∉ rest := (List.nodup_cons.mp hnd).1
      have hrest : (failureMetricsOn e f rest).filter (isFailureWithStatus (statusLabel i)) = [] := by
        refine filter_failureMetricsOn_of_not_mem e f i rest fun k hk hlab => ?_
        exact hnotin (hinj k (List.mem_cons_of_mem i hk) hlab ▸ hk)
      by_cases hfi : f i > 0 <;>
        simp [failureMetricsOn, hfi, List.filter_append, isFailureWithStatus, hrest]
    · have hjne : j ≠ i := by
        rintro rfl
        exact (List.nodup_cons.mp hnd).1 hmem2
      have hlabne : statusLabel j ≠ statusLabel i := fun hlab =>
        hjne (hinj j (List.mem_cons_self j rest) hlab)
      have hrest := ih hmem2 (List.nodup_cons.mp hnd).2
        fun k hk => hinj k (List.mem_cons_of_mem j hk)
      by_cases hfj : f j > 0 <;>
        simp [failureMetricsOn, hfj, List.filter_append, isFailureWithStatus, hlabne, hrest]

/-- C2: for every record and status index `i < 112` (status codes 400..511),
`Collect` emits exactly one failure metric with `status_code` label
`Nat.repr (i + 400)` and value `v = totalFailedCalls[i]` when `v > 0`, and
none with that status code when `v = 0`. -/
theorem collect_failure_status (c : ConnStats) (i : Fin errorHTTPStatusCodes) :
    (collectOne (some c)).filter (isFailureWithStatus (Nat.repr (i.val + 400))) =
      if c.totalFailedCalls i > 0
      then [Metric.failedCalls c.endpoint (Nat.repr (i.val + 400)) (c.totalFailedCalls i)]
      else [] := by
  have hs : Nat.repr (i.val + 400) = statusLabel i := rfl
  rw [hs]
  have hmain := filter_failureMetricsOn c.endpoint c.totalFailedCalls i
    (List.finRange errorHTTPStatusCodes) (List.mem_finRange i)
    (List.nodup_finRange errorHTTPStatusCodes)
    (fun j _ => statusLabel_inj i j)
  simp [collectOne, List.filter_cons, List.filter_append, isFailureWithStatus,
    failureMetrics, hmain]

lemma pow64_eq : (2 : Int) ^ 64 = 18446744073709551616 := by norm_num

lemma pow63_eq : (2 : Int) ^ 63 = 9223372036854775808 := by norm_num

/-- C3: storing a non-negative `int64` byte count and reading it back returns
exactly the stored value, regardless of the record's prior state, for both the
input-bytes and the output-bytes counters. -/
theorem set_get_bytes_roundtrip (s : ConnStats) (n : Int)
    (h0 : 0 ≤ n) (h1 : n < 2 ^ 63) :
    (getTotalInputBytes (setInputBytes s n) : Int) = n ∧
    (getTotalOutputBytes (setOutputBytes s n) : Int) = n := by
  have key : ((toUint64 n : Nat) : Int) = n := by
    unfold toUint64
    rw [pow63_eq] at h1
    rw [pow64_eq]
    omega
  exact ⟨key, key⟩

theorem set_get_bytes_roundtrip_witness :
    ((0 : Int) ≤ 42 ∧ (42 : Int) < 2 ^ 63) ∧
      (getTotalInputBytes (setInputBytes (newConnStats "e") 42) : Int) = 42 ∧
      (getTotalOutputBytes (setOutputBytes (newConnStats "e") 42) : Int) = 42 :=
  ⟨⟨by norm_num, by norm_num⟩,
    set_get_bytes_roundtrip (newConnStats "e") 42 (by norm_num) (by norm_num)⟩

/-- C4: `setMinLatency d` leaves `minLatency = d` and `setMaxLatency d` leaves
`maxLatency = d` for every prior state — the stored value is unconditionally
replaced (last write wins), never compared with the previous value. -/
theorem setMinMaxLatency_replace (s : ConnStats) (d : Int) :
    (setMinLatency s d).minLatency = d ∧ (setMaxLatency s d).maxLatency = d :=
  ⟨rfl, rfl⟩

lemma collect_append (a b : List (Option ConnStats)) :
    collect (a ++ b) = collect a ++ collect b := by
  induction a with
  | nil => rfl
  | cons c rest ih => simp [collect, ih]

lemma failureMetricsOn_zero (e : String) (f : Fin errorHTTPStatusCodes → Nat)
    (l : List (Fin errorHTTPStatusCodes)) (h : ∀ j, f j = 0) :
    failureMetricsOn e f l = [] := by
  induction l with
  | nil => rfl
  | cons j rest ih => simp [failureMetricsOn, h j, ih]

/-- C5: a registry entry whose counters and failure slots are all zero still
produces its three base counters (total calls 0, bytes received 0, bytes sent
0), each labelled with its endpoint, and no failure-status metric. -/
theorem collect_all_zero_record (pre post : List (Option ConnStats)) (c : ConnStats)
    (hcalls : c.totalCalls = 0) (hin : c.totalInputBytes = 0)
    (hout : c.totalOutputBytes = 0) (hfail : ∀ i, c.totalFailedCalls i = 0) :
    collect (pre ++ some c :: post) =
      collect pre ++
        (Metric.totalCalls c.endpoint 0 :: Metric.rxBytes c.endpoint 0 ::
          Metric.txBytes c.endpoint 0 :: collect post) := by
  rw [collect_append]
  simp [collect, collectOne, failureMetrics, failureMetricsOn_zero _ _ _ hfail,
    hcalls, hin, hout, getTotalInputBytes, getTotalOutputBytes]

theorem collect_all_zero_record_witness :
    collect [some (newConnStats "e"), none] =
      [Metric.totalCalls "e" 0, Metric.rxBytes "e" 0, Metric.txBytes "e" 0] :=
  collect_all_zero_record [] [none] (newConnStats "e") rfl rfl rfl (fun _ => rfl)

/-- C6: `Collect` traverses the registry once and a `nil` entry contributes no
metric at all — removing a `nil` slot from anywhere in the registry leaves the
collected output unchanged, so collection is total on registries with `nil`
slots. -/
theorem collect_skips_nil (pre post : List (Option ConnStats)) :
    collect (pre ++ none :: post) = collect (pre ++ post) ∧
      collectOne none = [] := by
  refine ⟨?_, rfl⟩
  rw [collect_append, collect_append]
  simp [collect, collectOne]

/-- C7: `setTotalCallFailures counts` overwrites every slot `i` of the failure
array with `counts i` interpreted as unsigned (`uint64` conversion); no slot is
accumulated into or left unchanged. -/
theorem setTotalCallFailures_replaces_every_slot (s : ConnStats)
    (counts : Fin errorHTTPStatusCodes → Int) (i : Fin errorHTTPStatusCodes) :
    (setTotalCallFailures s counts).totalFailedCalls i = toUint64 (counts i) :=
  rfl

/-- C8: every mutator changes only its own target field; the endpoint string
and all other fields are left unchanged. -/
theorem setters_frame (s : ConnStats) (n : Int)
    (counts : Fin errorHTTPStatusCodes → Int) (d : Int) :
    ((setInputBytes s n).endpoint = s.endpoint ∧
      (setInputBytes s n).totalOutputBytes = s.totalOutputBytes ∧
      (setInputBytes s n).totalCalls = s.totalCalls ∧
      (setInputBytes s n).totalFailedCalls = s.totalFailedCalls ∧
      (setInputBytes s n).minLatency = s.minLatency ∧
      (setInputBytes s n).maxLatency = s.maxLatency) ∧
    ((setOutputBytes s n).endpoint = s.endpoint ∧
      (setOutputBytes s n).totalInputBytes = s.totalInputBytes ∧
      (setOutputBytes s n).totalCalls = s.totalCalls ∧
      (setOutputBytes s n).totalFailedCalls = s.totalFailedCalls ∧
      (setOutputBytes s n).minLatency = s.minLatency ∧
      (setOutputBytes s n).maxLatency = s.maxLatency) ∧
    ((setTotalCalls s n).endpoint = s.endpoint ∧
      (setTotalCalls s n).totalInputBytes = s.totalInputBytes ∧
      (setTotalCalls s n).totalOutputBytes = s.totalOutputBytes ∧
      (setTotalCalls s n).totalFailedCalls = s.totalFailedCalls ∧
      (setTotalCalls s n).minLatency = s.minLatency ∧
      (setTotalCalls s n).maxLatency = s.maxLatency) ∧
    ((setTotalCallFailures s counts).endpoint = s.endpoint ∧
      (setTotalCallFailures s counts).totalInputBytes = s.totalInputBytes ∧
      (setTotalCallFailures s counts).totalOutputBytes = s.totalOutputBytes ∧
      (setTotalCallFailures s counts).totalCalls = s.totalCalls ∧
      (setTotalCallFailures s counts).minLatency = s.minLatency ∧
      (setTotalCallFailures s counts).maxLatency = s.maxLatency) ∧
    ((setMinLatency s d).endpoint = s.endpoint ∧
      (setMinLatency s d).totalInputBytes = s.totalInputBytes ∧
      (setMinLatency s d).totalOutputBytes = s.totalOutputBytes ∧
      (setMinLatency s d).totalCalls = s.totalCalls ∧
      (setMinLatency s d).totalFailedCalls = s.totalFailedCalls ∧
      (setMinLatency s d).maxLatency = s.maxLatency) ∧
    ((setMaxLatency s d).endpoint = s.endpoint ∧
      (setMaxLatency s d).totalInputBytes = s.totalInputBytes ∧
      (setMaxLatency s d).totalOutputBytes = s.totalOutputBytes ∧
      (setMaxLatency s d).totalCalls = s.totalCalls ∧
      (setMaxLatency s d).totalFailedCalls = s.totalFailedCalls ∧
      (setMaxLatency s d).minLatency = s.minLatency) :=
  ⟨⟨rfl, rfl, rfl, rfl, rfl, rfl⟩, ⟨rfl, rfl, rfl, rfl, rfl, rfl⟩,
    ⟨rfl, rfl, rfl, rfl, rfl, rfl⟩, ⟨rfl, rfl, rfl, rfl, rfl, rfl⟩,
    ⟨rfl, rfl, rfl, rfl, rfl, rfl⟩, ⟨rfl, rfl, rfl, rfl, rfl, rfl⟩⟩

/-- C9: `newConnStats e` has endpoint `e` and every counter field zero:
input bytes, output bytes, total calls, every failure slot, and both latency
bounds. -/
theorem newConnStats_zero (e : String) :
    (newConnStats e).endpoint = e ∧
    (newConnStats e).totalInputBytes = 0 ∧
    (newConnStats e).totalOutputBytes = 0 ∧
    (newConnStats e).totalCalls = 0 ∧
    (∀ i, (newConnStats e).totalFailedCalls i = 0) ∧
    (newConnStats e).minLatency = 0 ∧
    (newConnStats e).maxLatency = 0 :=
  ⟨rfl, rfl, rfl, rfl, fun _ => rfl, rfl, rfl⟩

/-- C10: storing a negative `int64` value never errors: the value is converted
to unsigned modulo `2 ^ 64`, so a subsequent read returns `n + 2 ^ 64`, not an
error and not zero; likewise for output bytes and total calls. -/
theorem set_negative_wraps (s : ConnStats) (n : Int)
    (hlo : -(2 ^ 63) ≤ n) (hneg : n < 0) :
    (getTotalInputBytes (setInputBytes s n) : Int) = n + 2 ^ 64 ∧
    (getTotalOutputBytes (setOutputBytes s n) : Int) = n + 2 ^ 64 ∧
    ((setTotalCalls s n).totalCalls : Int) = n + 2 ^ 64 := by
  have key : ((toUint64 n : Nat) : Int) = n + 2 ^ 64 := by
    unfold toUint64
    rw [pow63_eq] at hlo
    rw [pow64_eq]
    omega
  exact ⟨key, key, key⟩

theorem set_negative_wraps_witness :
    (-(2 ^ 63) ≤ (-5 : Int) ∧ (-5 : Int) < 0) ∧
      (getTotalInputBytes (setInputBytes (newConnStats "e") (-5)) : Int) = -5 + 2 ^ 64 ∧
      (getTotalOutputBytes (setOutputBytes (newConnStats "e") (-5)) : Int) = -5 + 2 ^ 64 ∧
      ((setTotalCalls (newConnStats "e") (-5)).totalCalls : Int) = -5 + 2 ^ 64 :=
  ⟨⟨by norm_num, by norm_num⟩,
    set_negative_wraps (newConnStats "e") (-5) (by norm_num) (by norm_num)⟩

end Sidekick
